import Mathlib

/-
  Verification of the natural-language specification of libsphinx's OPAQUE
  core (src/opaque.c) against the source.

  Shallow embedding notes:
  - Byte buffers are lists of naturals (Bytes).  C pointer/length pairs are
    modelled as lists; a NULL pointer is identified with the empty list /
    the value none for optional inputs, exactly as the callers pair them.
  - The cryptographic primitives (libsodium: ristretto255, curve25519,
    SHA-256, HMAC, HKDF, the memory-hard password hash, the keyed generic
    hash) are external trusted building blocks, out of scope per the spec;
    they are abstracted as the fields of the Prims structure.  The only
    structural facts recorded about them are output lengths that the C code
    relies on for buffer offsets (HKDF expand output length, 32-byte HMAC
    tags, 32-byte curve25519 points).
  - crypto_auth_hmacsha256_verify recomputes the tag and compares; it is
    modelled as an equality test of the recomputed tag with the stored one.
  - sodium_mlock/munlock failures and crypto_pwhash out-of-memory failures
    are environmental (resource) failures, not data-dependent; they are
    elided (mlock always succeeds, pwhash is total).
  - RNG draws (randombytes, crypto_core_ristretto255_scalar_random) are
    passed as explicit arguments, mirroring the determinism-in-randomness
    contract of the spec.
  - The C identifiers carry a protocol-name prefix (opa...) that is a
    reserved word in Lean; the prefix is dropped here, the rest of each
    name is kept (e.g. init_srv, session_usr_finish, envelope_open).
-/

namespace LibSphinx

abbrev Bytes := List Nat

/-- Abstract interface to the trusted cryptographic primitives composed by
the core.  Functions that the C code checks for failure return Option. -/
structure Prims where
  /-- crypto_scalarmult_ristretto255; none models the nonzero return. -/
  r255_smul : Bytes → Bytes → Option Bytes
  /-- crypto_core_ristretto255_is_valid_point. -/
  r255_valid : Bytes → Bool
  /-- crypto_core_ristretto255_scalar_invert; none models the nonzero return. -/
  r255_inv : Bytes → Option Bytes
  /-- crypto_scalarmult (curve25519); none models the nonzero return. -/
  smul : Bytes → Bytes → Option Bytes
  /-- crypto_scalarmult_base. -/
  smul_base : Bytes → Bytes
  /-- crypto_hash_sha256 over a full message. -/
  sha256 : Bytes → Bytes
  /-- crypto_auth_hmacsha256 key msg. -/
  hmac : Bytes → Bytes → Bytes
  /-- crypto_kdf_hkdf_sha256_extract with empty salt. -/
  hkdf_extract : Bytes → Bytes
  /-- crypto_kdf_hkdf_sha256_expand outlen ctx prk. -/
  hkdf_expand : Nat → Bytes → Bytes → Bytes
  /-- crypto_pwhash with the all-zero salt and INTERACTIVE limits. -/
  pwhash : Bytes → Bytes
  /-- crypto_generichash key msg outlen (empty key models a NULL key). -/
  genhash : Bytes → Bytes → Nat → Bytes
  /-- hash-to-group used by the OPRF blinding. -/
  hash2grp : Bytes → Bytes
  /-- HKDF expand emits exactly the requested number of bytes. -/
  hkdf_expand_len : ∀ n ctx prk, (hkdf_expand n ctx prk).length = n
  /-- HMAC-SHA256 tags are 32 bytes. -/
  hmac_len : ∀ k m, (hmac k m).length = 32
  /-- curve25519 points are 32 bytes. -/
  smul_base_len : ∀ s, (smul_base s).length = 32

/-- Opaque_Ids: caller-supplied identities, either may be NULL. -/
structure Ids where
  idU : Option Bytes
  idS : Option Bytes

/-- Opaque_App_Infos: application info strings, each may be NULL. -/
structure App_Infos where
  info1 : Option Bytes
  info2 : Option Bytes
  einfo2 : Option Bytes
  info3 : Option Bytes
  einfo3 : Option Bytes

/-- Opaque_UserRecord.  The field c is the flat envelope region
(Opaque_Blob) of length 32 + SecEnv + ClrEnv + 32 as written by the
enveloping function. -/
structure UserRecord where
  k_s : Bytes
  p_s : Bytes
  P_u : Bytes
  P_s : Bytes
  extra_len : Nat
  c : Bytes
deriving DecidableEq

/-- Opaque_UserSession (login msg 1). -/
structure UserSession where
  alpha : Bytes
  X_u : Bytes
  nonceU : Bytes
deriving DecidableEq

/-- Opaque_UserSession_Secret. -/
structure UserSession_Secret where
  r : Bytes
  x_u : Bytes
  nonceU : Bytes
  alpha : Bytes
deriving DecidableEq

/-- Opaque_ServerSession (login msg 2); c is the flat envelope copy. -/
structure ServerSession where
  beta : Bytes
  X_s : Bytes
  nonceS : Bytes
  auth : Bytes
  extra_len : Nat
  c : Bytes
deriving DecidableEq

/-- Opaque_RegisterPub. -/
structure RegisterPub where
  beta : Bytes
  P_s : Bytes
deriving DecidableEq

/-- Opaque_RegisterSec. -/
structure RegisterSec where
  p_s : Bytes
  k_s : Bytes
deriving DecidableEq

/-- Opaque_Keys: the derived key bundle SK, Km2, Km3, Ke2, Ke3. -/
structure Keys where
  sk : Bytes
  km2 : Bytes
  km3 : Bytes
  ke2 : Bytes
  ke3 : Bytes
deriving DecidableEq

/-- Modelled from the spec: OPAQUE_MAX_EXTRA_BYTES lives in opaque.h which
is not part of the given sources; the spec bounds extra at 1 KiB. -/
def MAX_EXTRA_BYTES : Nat := 1024

/-- The 4 bytes of the literal EnvU used as HKDF context suffix. -/
def envU : Bytes := [69, 110, 118, 85]

/-- The 3 bytes of the literal rwd used as generichash key. -/
def rwdKey : Bytes := [114, 119, 100]

/-- derive_keys: SK, Km2, Km3, Ke2, Ke3 = HKDF(salt=0, IKM=sec, info, 160),
split positionally into five 32-byte keys. -/
def derive_keys (P : Prims) (ikm : Bytes) (info : Bytes) : Keys :=
  let prk := P.hkdf_extract ikm
  let ks := P.hkdf_expand 160 info prk
  { sk := ks.take 32
    km2 := (ks.drop 32).take 32
    km3 := (ks.drop 64).take 32
    ke2 := (ks.drop 96).take 32
    ke3 := (ks.drop 128).take 32 }

/-- calc_info: info = SHA-256(nonceU | nonceS | idU? | idS?), the identity
fields hashed only when non-NULL. -/
def calc_info (P : Prims) (nonceU nonceS : Bytes) (ids : Ids) : Bytes :=
  P.sha256 (nonceU ++ nonceS ++ (ids.idU.getD []) ++ (ids.idS.getD []))

/-- True when infos carries neither info3 nor einfo3 (both NULL, or infos
itself NULL). -/
def infos_no3 (infos : Option App_Infos) : Bool :=
  match infos with
  | none => true
  | some i => i.info3.isNone && i.einfo3.isNone

/-- get_xcript: SHA-256 over OPRF1, nonceU, info1?, ePubU, OPRF2, EnvU,
nonceS, info2?, ePubS, Einfo2?, info3?, Einfo3?, each optional field hashed
only when non-NULL.  The second component models the preserved hash state
(as the byte prefix absorbed so far): the C code copies the running state
out only when a state pointer was given and infos carries no info3/einfo3,
otherwise the caller's state stays unwritten (none). -/
def get_xcript (P : Prims) (oprf1 nonceU epubu oprf2 envu nonceS epubs : Bytes)
    (infos : Option App_Infos) (wantState : Bool) : Bytes × Option Bytes :=
  let i1 := (infos.bind fun i => i.info1).getD []
  let i2 := (infos.bind fun i => i.info2).getD []
  let ei2 := (infos.bind fun i => i.einfo2).getD []
  let i3 := (infos.bind fun i => i.info3).getD []
  let ei3 := (infos.bind fun i => i.einfo3).getD []
  let pre := oprf1 ++ nonceU ++ i1 ++ epubu ++ oprf2 ++ envu ++ nonceS ++ i2 ++ epubs ++ ei2
  (P.sha256 (pre ++ i3 ++ ei3), if wantState && infos_no3 infos then some pre else none)

/-- server_3dh: sec = (ix . Ep) | (ex . Ip) | (ex . Ep), then derive_keys;
any failing scalar multiplication aborts. -/
def server_3dh (P : Prims) (ix ex Ip Ep info : Bytes) : Option Keys :=
  match P.smul ix Ep with
  | none => none
  | some s1 =>
    match P.smul ex Ip with
    | none => none
    | some s2 =>
      match P.smul ex Ep with
      | none => none
      | some s3 => some (derive_keys P (s1 ++ s2 ++ s3) info)

/-- user_3dh: sec = (ex . Ip) | (ix . Ep) | (ex . Ep), then derive_keys. -/
def user_3dh (P : Prims) (ix ex Ip Ep info : Bytes) : Option Keys :=
  match P.smul ex Ip with
  | none => none
  | some s1 =>
    match P.smul ix Ep with
    | none => none
    | some s2 =>
      match P.smul ex Ep with
      | none => none
      | some s3 => some (derive_keys P (s1 ++ s2 ++ s3) info)

/-- envelope (seal): envelope = nonce | (SecEnv XOR pad) | ClrEnv | tag with
keys = HKDF-Expand(rwd, nonce | EnvU, SecEnv_len + 64) split into pad,
hmac key and export key.  The nonce is the randombytes draw (32 bytes).
The C NULL-vs-length consistency guards and the size_t overflow guards
cannot fire in the list model (pointers and lengths are one value, Nat does
not overflow), so the function is total. -/
def envelope (P : Prims) (rwd SecEnv ClrEnv nonce : Bytes) : Bytes × Bytes :=
  let keys := P.hkdf_expand (2 * 32 + SecEnv.length) (nonce ++ envU) rwd
  let ct := List.zipWith Nat.xor SecEnv keys
  let hmackey := (keys.drop SecEnv.length).take 32
  let tag := P.hmac hmackey (nonce ++ ct ++ ClrEnv)
  let ekey := (keys.drop (SecEnv.length + 32)).take 32
  (nonce ++ ct ++ ClrEnv ++ tag, ekey)

/-- envelope_open: re-derive keys from the leading 32 envelope bytes,
verify the tag over nonce | ct | ClrEnv against the stored tag, and only
then decrypt SecEnv, copy ClrEnv out (when a ClrEnv buffer was given,
i.e. ClrEnv_len is nonzero) and emit the export key.  On tag mismatch
nothing is written. -/
def envelope_open (P : Prims) (rwd env : Bytes) (SecEnv_len ClrEnv_len : Nat) :
    Option (Bytes × Option Bytes × Bytes) :=
  let ctx := env.take 32 ++ envU
  let keys := P.hkdf_expand (2 * 32 + SecEnv_len) ctx rwd
  let hmackey := (keys.drop SecEnv_len).take 32
  if P.hmac hmackey (env.take (32 + SecEnv_len + ClrEnv_len))
      = (env.drop (32 + SecEnv_len + ClrEnv_len)).take 32 then
    let c := env.drop 32
    some (List.zipWith Nat.xor (c.take SecEnv_len) keys,
          if ClrEnv_len ≠ 0 then some ((c.drop SecEnv_len).take ClrEnv_len) else none,
          (keys.drop (SecEnv_len + 32)).take 32)
  else none

/-- Modelled from the spec: sphinx_oprf lives in common.c which is not part
of the given sources.  Per the OPRF section, registration evaluates
beta = hash_to_group(pw) . k_s with the server acting as both sides and
rw0 = keyed_hash(key_or_empty, pw | h, 32). -/
def sphinx_oprf (P : Prims) (pw k : Bytes) (key : Option Bytes) : Option Bytes :=
  match P.r255_smul k (P.hash2grp pw) with
  | none => none
  | some h => some (P.genhash (key.getD []) (pw ++ h) 32)

/-- Modelled from the spec: sphinx_blindPW lives in common.c which is not
part of the given sources.  Per the OPRF section, blinding samples a
non-zero r (here: the given draw) and computes alpha = hash_to_group(pw) . r. -/
def sphinx_blindPW (P : Prims) (pw r : Bytes) : Option Bytes :=
  P.r255_smul r (P.hash2grp pw)

/-- init_srv (register, server-knows-all): draw k_s, rw0 via the OPRF, rw
via pwhash, draw p_s and p_u, derive the public keys, build
SecEnv = p_u | P_u | P_s | extra, record extra_len, and seal the envelope
into the record. -/
def init_srv (P : Prims) (pw extra : Bytes) (key : Option Bytes) (ClrEnv : Bytes)
    (k_s p_s p_u nonceE : Bytes) : Option (UserRecord × Bytes) :=
  match sphinx_oprf P pw k_s key with
  | none => none
  | some rw0 =>
    let rw := P.pwhash rw0
    let P_s := P.smul_base p_s
    let P_u := P.smul_base p_u
    let er := envelope P rw (p_u ++ P_u ++ P_s ++ extra) ClrEnv nonceE
    some ({ k_s := k_s, p_s := p_s, P_u := P_u, P_s := P_s,
            extra_len := extra.length, c := er.1 }, er.2)

/-- session_usr_start (login msg 1): blind the password, draw x_u and
nonceU, publish alpha, X_u = g^x_u and nonceU, keeping r, x_u, nonceU and a
copy of alpha secret. -/
def session_usr_start (P : Prims) (pw : Bytes) (r x_u nonceU : Bytes) :
    Option (UserSession_Secret × UserSession) :=
  match sphinx_blindPW P pw r with
  | none => none
  | some alpha =>
    some ({ r := r, x_u := x_u, nonceU := nonceU, alpha := alpha },
          { alpha := alpha, X_u := P.smul_base x_u, nonceU := nonceU })

/-- Output bundle of session_srv: the response, SK, Km3 and the preserved
transcript-hash state (none when the C code leaves the caller's state
struct unwritten). -/
structure SrvOut where
  resp : ServerSession
  sk : Bytes
  km3 : Bytes
  xstate : Option Bytes
deriving DecidableEq

/-- session_srv (login msg 2): validate alpha, beta = alpha^k_s, draw x_s
and nonceS, derive info and the 3-DH keys, copy the envelope out of the
record (the C memcpy copies sizeof(Opaque_Blob) + extra_len = 160 +
extra_len bytes, which truncates any ClrEnv/tag tail beyond that), hash
the transcript and authenticate it under Km2. -/
def session_srv (P : Prims) (pub : UserSession) (rec : UserRecord) (ids : Ids)
    (infos : Option App_Infos) (x_s nonceS : Bytes) : Option SrvOut :=
  if P.r255_valid pub.alpha = true then
    match P.r255_smul rec.k_s pub.alpha with
    | none => none
    | some beta =>
      let X_s := P.smul_base x_s
      let info := calc_info P pub.nonceU nonceS ids
      match server_3dh P rec.p_s x_s rec.P_u pub.X_u info with
      | none => none
      | some keys =>
        let c := rec.c.take (160 + rec.extra_len)
        let xr := get_xcript P pub.alpha pub.nonceU pub.X_u beta
            (c.take (160 + rec.extra_len)) nonceS X_s infos true
        some { resp := { beta := beta, X_s := X_s, nonceS := nonceS,
                         auth := P.hmac keys.km2 xr.1,
                         extra_len := rec.extra_len, c := c },
               sk := keys.sk, km3 := keys.km3, xstate := xr.2 }
  else none

/-- Caller-visible output buffers of session_usr_finish: none means the
buffer was never written; some v means it holds v when the call returns. -/
structure FinishOut where
  ret : Bool
  sk : Option Bytes
  extra : Option Bytes
  rwd : Option Bytes
  auth : Option Bytes
  clrEnv : Option Bytes
  export_key : Option Bytes
deriving DecidableEq

/-- The all-unwritten failure result of session_usr_finish. -/
def finishFail : FinishOut :=
  { ret := false, sk := none, extra := none, rwd := none, auth := none,
    clrEnv := none, export_key := none }

/-- infos with info3 and einfo3 set to NULL, as the client does around the
server-authenticator transcript. -/
def stripInfo3 (infos : Option App_Infos) : Option App_Infos :=
  infos.map fun i => { i with info3 := none, einfo3 := none }

/-- session_usr_finish (login msg 3): validate beta, unblind
h0 = beta^(1/r), rw0 = generichash(key?, pw | h0), rw = pwhash(rw0), bound
extra_len, open the envelope (which writes ClrEnv and export_key), emit
rwd = generichash(key=rwd, rw) when requested, run user_3dh on the
decrypted p_u/P_s, recompute the transcript without info3/einfo3 and
verify the server authenticator (zeroing rwd on mismatch), then output SK,
the optional client authenticator over the full transcript, and the
decrypted extra bytes.  wantRwd/wantAuth model NULL rwd/auth pointers. -/
def session_usr_finish (P : Prims) (pw : Bytes) (resp : ServerSession)
    (sec : UserSession_Secret) (key : Option Bytes) (ids : Ids)
    (infos : Option App_Infos) (ClrEnv_len : Nat) (wantRwd wantAuth : Bool) :
    FinishOut :=
  if P.r255_valid resp.beta = true then
    match P.r255_inv sec.r with
    | none => finishFail
    | some ir =>
      match P.r255_smul ir resp.beta with
      | none => finishFail
      | some h0 =>
        let rw := P.pwhash (P.genhash (key.getD []) (pw ++ h0) 32)
        if resp.extra_len > MAX_EXTRA_BYTES then finishFail
        else
          match envelope_open P rw resp.c (96 + resp.extra_len) ClrEnv_len with
          | none => finishFail
          | some (SecEnv, clr, ekey) =>
            let rwdv := if wantRwd then some (P.genhash rwdKey rw 32) else none
            let info := calc_info P sec.nonceU resp.nonceS ids
            match user_3dh P (SecEnv.take 32) sec.x_u ((SecEnv.drop 64).take 32)
                resp.X_s info with
            | none =>
              { ret := false, sk := none, extra := none, rwd := rwdv,
                auth := none, clrEnv := clr, export_key := some ekey }
            | some keys =>
              let X_u := P.smul_base sec.x_u
              let xcript := (get_xcript P sec.alpha sec.nonceU X_u resp.beta
                  (resp.c.take (160 + resp.extra_len)) resp.nonceS resp.X_s
                  (stripInfo3 infos) false).1
              if P.hmac keys.km2 xcript = resp.auth then
                let authv := if wantAuth then
                    some (P.hmac keys.km3 ((get_xcript P sec.alpha sec.nonceU X_u
                      resp.beta (resp.c.take (160 + resp.extra_len)) resp.nonceS
                      resp.X_s infos false).1))
                  else none
                { ret := true, sk := some keys.sk,
                  extra := if resp.extra_len ≠ 0 then
                      some ((SecEnv.drop 96).take resp.extra_len) else none,
                  rwd := rwdv, auth := authv, clrEnv := clr,
                  export_key := some ekey }
              else
                { ret := false, sk := none, extra := none,
                  rwd := if wantRwd then some (List.replicate 32 0) else none,
                  auth := none, clrEnv := clr, export_key := some ekey }
  else finishFail

/-- session_server_auth: absorb info3/einfo3 into the preserved transcript
state, finalize, and verify the client authenticator under Km3. -/
def session_server_auth (P : Prims) (km3 st authU : Bytes)
    (infos : Option App_Infos) : Bool :=
  let i3 := (infos.bind fun i => i.info3).getD []
  let ei3 := (infos.bind fun i => i.einfo3).getD []
  decide (P.hmac km3 (P.sha256 (st ++ i3 ++ ei3)) = authU)

/-- private_init_usr_start: blind the password. -/
def private_init_usr_start (P : Prims) (pw r : Bytes) : Option Bytes :=
  sphinx_blindPW P pw r

/-- private_init_srv_respond: validate alpha, draw k_s, beta = alpha^k_s,
draw p_s, P_s = g^p_s. -/
def private_init_srv_respond (P : Prims) (alpha : Bytes) (k_s p_s : Bytes) :
    Option (RegisterSec × RegisterPub) :=
  if P.r255_valid alpha = true then
    match P.r255_smul k_s alpha with
    | none => none
    | some beta =>
      some ({ p_s := p_s, k_s := k_s }, { beta := beta, P_s := P.smul_base p_s })
  else none

/-- private_init_usr_respond: validate beta, unblind h0 = beta^(1/r),
derive rw, draw p_u, P_u = g^p_u, build SecEnv = p_u | P_u | P_s | extra
from the server's P_s, seal the envelope, and emit the optional rwd and the
export key.  The record's k_s, p_s and P_s fields are not written at this
step (the C buffer is uninitialized there; modelled as empty). -/
def private_init_usr_respond (P : Prims) (pw r : Bytes) (pub : RegisterPub)
    (extra : Bytes) (key : Option Bytes) (ClrEnv : Bytes) (p_u nonceE : Bytes)
    (wantRwd : Bool) : Option (UserRecord × Option Bytes × Bytes) :=
  if P.r255_valid pub.beta = true then
    match P.r255_inv r with
    | none => none
    | some ir =>
      match P.r255_smul ir pub.beta with
      | none => none
      | some h0 =>
        let rw := P.pwhash (P.genhash (key.getD []) (pw ++ h0) 32)
        let P_u := P.smul_base p_u
        let er := envelope P rw (p_u ++ P_u ++ pub.P_s ++ extra) ClrEnv nonceE
        some ({ k_s := [], p_s := [], P_u := P_u, P_s := [],
                extra_len := extra.length, c := er.1 },
              if wantRwd then some (P.genhash rwdKey rw 32) else none,
              er.2)
  else none

/-- private_init_srv_finish: copy k_s and p_s from the step-2 secret and
P_s from the step-2 public into the record; nothing else is touched and
there is no error return. -/
def private_init_srv_finish (sec : RegisterSec) (pub : RegisterPub)
    (rec : UserRecord) : UserRecord :=
  { rec with k_s := sec.k_s, p_s := sec.p_s, P_s := pub.P_s }

/-- A 32-byte buffer with the given leading byte, used by the concrete
primitive instance below. -/
def pad32 (n : Nat) : Bytes := n :: List.replicate 31 0

/-- A cheap polynomial mixing function used by the concrete primitive
instance below. -/
def poly (c : Nat) (m : Bytes) : Nat :=
  m.foldl (fun a b => (a * 31 + b + c) % 1000003) (c % 1000003)

/-- A small concrete instance of the primitive interface, used to evaluate
the theorems on concrete inputs: the ristretto group is the multiplicative
group mod 11 written with scalars acting as exponents (generator 2, order
10, identity 1), the curve25519 group is the multiplicative group mod 23
(base point 5), and the hash family is the poly mixer. -/
def toy : Prims where
  r255_smul a p :=
    let v := (p.headI ^ (a.headI % 10)) % 11
    if v = 1 then none else some (pad32 v)
  r255_valid p := decide (p.headI % 11 ≠ 1)
  r255_inv a := ((List.range 10).find? (fun i => decide ((a.headI * i) % 10 = 1))).map pad32
  smul a p :=
    let v := (p.headI ^ (a.headI % 22)) % 23
    if v = 1 then none else some (pad32 v)
  smul_base b := pad32 ((5 ^ (b.headI % 22)) % 23)
  sha256 m := pad32 (poly 3 m)
  hmac k m := pad32 (poly 5 (k ++ (257 :: m)))
  hkdf_extract ikm := pad32 (poly 11 ikm)
  hkdf_expand n ctx prk := (List.range n).map (fun i => (poly 13 ctx + poly 17 prk + 37 * i + 1) % 1000003)
  pwhash x := pad32 (poly 19 x)
  genhash k m outlen := (List.range outlen).map (fun i => (poly 23 k + poly 29 m + 41 * i) % 1000003)
  hash2grp pw := pad32 ((2 ^ (poly 7 pw % 10)) % 11)
  hkdf_expand_len := by intro n ctx prk; simp
  hmac_len := by intro k m; simp [pad32]
  smul_base_len := by intro s; simp [pad32]

/-- XOR-decrypting with the same keystream recovers the plaintext. -/
theorem zip_xor_cancel : ∀ (s k : Bytes), s.length ≤ k.length →
    List.zipWith Nat.xor (List.zipWith Nat.xor s k) k = s
  | [], _, _ => by simp
  | _ :: _, [], h => by simp at h
  | a :: s, b :: k, h => by
    simp only [List.zipWith, List.cons.injEq]
    exact ⟨Nat.xor_cancel_right _ _, zip_xor_cancel s k (by simpa using h)⟩

/-- The ciphertext of a sealed envelope is as long as SecEnv. -/
theorem envelope_ct_length (P : Prims) (rw SecEnv nonce : Bytes) :
    (List.zipWith Nat.xor SecEnv
      (P.hkdf_expand (2 * 32 + SecEnv.length) (nonce ++ envU) rw)).length
      = SecEnv.length := by
  rw [List.length_zipWith, P.hkdf_expand_len]
  omega

/-- Opening a sealed envelope with the same rw and the true lengths
succeeds and recovers SecEnv, ClrEnv and the export key. -/
theorem envelope_open_envelope (P : Prims) (rw SecEnv ClrEnv nonce : Bytes)
    (hn : nonce.length = 32) :
    envelope_open P rw (envelope P rw SecEnv ClrEnv nonce).1 SecEnv.length ClrEnv.length
      = some (SecEnv, (if ClrEnv.length ≠ 0 then some ClrEnv else none),
              (envelope P rw SecEnv ClrEnv nonce).2) := by
  simp only [envelope, envelope_open, List.append_assoc]
  generalize hK : P.hkdf_expand (2 * 32 + SecEnv.length) (nonce ++ envU) rw = K
  have hKlen : K.length = 2 * 32 + SecEnv.length := by
    rw [← hK]; exact P.hkdf_expand_len _ _ _
  generalize hct : List.zipWith Nat.xor SecEnv K = ct
  have hctlen : ct.length = SecEnv.length := by
    rw [← hct, List.length_zipWith, hKlen]; omega
  generalize htag : P.hmac ((K.drop SecEnv.length).take 32) (nonce ++ (ct ++ ClrEnv)) = tag
  have htaglen : tag.length = 32 := by rw [← htag]; exact P.hmac_len _ _
  have hassoc : nonce ++ (ct ++ (ClrEnv ++ tag)) = (nonce ++ (ct ++ ClrEnv)) ++ tag := by
    simp [List.append_assoc]
  have hmsglen : (nonce ++ (ct ++ ClrEnv)).length = 32 + SecEnv.length + ClrEnv.length := by
    simp [hn, hctlen]; omega
  have htake32 : (nonce ++ (ct ++ (ClrEnv ++ tag))).take 32 = nonce :=
    List.take_left' hn
  have htakemsg : (nonce ++ (ct ++ (ClrEnv ++ tag))).take (32 + SecEnv.length + ClrEnv.length)
      = nonce ++ (ct ++ ClrEnv) := by
    rw [hassoc]; exact List.take_left' hmsglen
  have hdroptag : (nonce ++ (ct ++ (ClrEnv ++ tag))).drop (32 + SecEnv.length + ClrEnv.length)
      = tag := by
    rw [hassoc]; exact List.drop_left' hmsglen
  have hdrop32 : (nonce ++ (ct ++ (ClrEnv ++ tag))).drop 32 = ct ++ (ClrEnv ++ tag) :=
    List.drop_left' hn
  rw [htake32, htakemsg, hdroptag, hdrop32, hK, htag,
    List.take_of_length_le (le_of_eq htaglen), if_pos rfl,
    List.take_left' hctlen, List.drop_left' hctlen, List.take_left' rfl, ← hct,
    zip_xor_cancel SecEnv K (by omega)]

/-- The transcript hash does not depend on the state-preservation flag. -/
theorem get_xcript_fst (P : Prims) (o1 nU eu o2 en nS es : Bytes)
    (infos : Option App_Infos) (w w' : Bool) :
    (get_xcript P o1 nU eu o2 en nS es infos w).1
      = (get_xcript P o1 nU eu o2 en nS es infos w').1 := rfl

/-- The length of a sealed envelope. -/
theorem envelope_length (P : Prims) (rw Sec Clr nonce : Bytes) :
    (envelope P rw Sec Clr nonce).1.length
      = nonce.length + Sec.length + Clr.length + 32 := by
  simp [envelope, P.hmac_len, List.length_zipWith, P.hkdf_expand_len]
  omega

/-- Core roundtrip lemma: a record whose envelope seals
p_u | g^p_u | g^p_s | extra under the rw derived from pw (and whose
plaintext fields agree) logs in successfully: the server step and the
client finish produce the results below, with matching session keys,
matching export keys, and the rwd emitted from rw. -/
theorem login_roundtrip
    (P : Prims) (pw extra : Bytes) (key : Option Bytes) (ids : Ids)
    (infos : Option App_Infos) (rec : UserRecord)
    (k_s p_s p_u nonceE r x_u nonceU x_s nonceS : Bytes)
    (alpha beta ir h0 rw a b c3 : Bytes)
    (hpu : p_u.length = 32) (hnE : nonceE.length = 32)
    (hex : extra.length ≤ 1024)
    (hno3 : stripInfo3 infos = infos)
    (hrw : rw = P.pwhash (P.genhash (key.getD []) (pw ++ h0) 32))
    (hrecc : rec.c = (envelope P rw (p_u ++ P.smul_base p_u ++ P.smul_base p_s ++ extra) [] nonceE).1)
    (hrecPu : rec.P_u = P.smul_base p_u)
    (hrecel : rec.extra_len = extra.length)
    (hrecks : rec.k_s = k_s)
    (hrecps : rec.p_s = p_s)
    (halpha : P.r255_smul r (P.hash2grp pw) = some alpha)
    (hvalalpha : P.r255_valid alpha = true)
    (hbeta : P.r255_smul k_s alpha = some beta)
    (hvalbeta : P.r255_valid beta = true)
    (hir : P.r255_inv r = some ir)
    (hunblind : P.r255_smul ir beta = some h0)
    (hdh1 : P.smul p_s (P.smul_base x_u) = some a)
    (hdh1u : P.smul x_u (P.smul_base p_s) = some a)
    (hdh2 : P.smul x_s (P.smul_base p_u) = some b)
    (hdh2u : P.smul p_u (P.smul_base x_s) = some b)
    (hdh3 : P.smul x_s (P.smul_base x_u) = some c3)
    (hdh3u : P.smul x_u (P.smul_base x_s) = some c3) :
    session_usr_start P pw r x_u nonceU
      = some (⟨r, x_u, nonceU, alpha⟩, ⟨alpha, P.smul_base x_u, nonceU⟩)
    ∧ session_srv P ⟨alpha, P.smul_base x_u, nonceU⟩ rec ids infos x_s nonceS
      = some { resp := { beta := beta, X_s := P.smul_base x_s, nonceS := nonceS,
                         auth := P.hmac (derive_keys P (a ++ b ++ c3) (calc_info P nonceU nonceS ids)).km2
                           (get_xcript P alpha nonceU (P.smul_base x_u) beta rec.c nonceS (P.smul_base x_s) infos true).1,
                         extra_len := rec.extra_len, c := rec.c },
               sk := (derive_keys P (a ++ b ++ c3) (calc_info P nonceU nonceS ids)).sk,
               km3 := (derive_keys P (a ++ b ++ c3) (calc_info P nonceU nonceS ids)).km3,
               xstate := (get_xcript P alpha nonceU (P.smul_base x_u) beta rec.c nonceS (P.smul_base x_s) infos true).2 }
    ∧ session_usr_finish P pw
        { beta := beta, X_s := P.smul_base x_s, nonceS := nonceS,
          auth := P.hmac (derive_keys P (a ++ b ++ c3) (calc_info P nonceU nonceS ids)).km2
            (get_xcript P alpha nonceU (P.smul_base x_u) beta rec.c nonceS (P.smul_base x_s) infos true).1,
          extra_len := rec.extra_len, c := rec.c }
        ⟨r, x_u, nonceU, alpha⟩ key ids infos 0 true true
      = { ret := true,
          sk := some (derive_keys P (a ++ b ++ c3) (calc_info P nonceU nonceS ids)).sk,
          extra := if extra.length ≠ 0 then some extra else none,
          rwd := some (P.genhash rwdKey rw 32),
          auth := some (P.hmac (derive_keys P (a ++ b ++ c3) (calc_info P nonceU nonceS ids)).km3
            (get_xcript P alpha nonceU (P.smul_base x_u) beta rec.c nonceS (P.smul_base x_s) infos true).1),
          clrEnv := none,
          export_key := some (envelope P rw (p_u ++ P.smul_base p_u ++ P.smul_base p_s ++ extra) [] nonceE).2 }
    ∧ (derive_keys P (a ++ b ++ c3) (calc_info P nonceU nonceS ids)).sk.length = 32 := by
  have hseclen : (p_u ++ P.smul_base p_u ++ P.smul_base p_s ++ extra).length
      = 96 + extra.length := by
    simp [hpu, P.smul_base_len]; omega
  have hclen : rec.c.length = 160 + extra.length := by
    rw [hrecc, envelope_length, hseclen, hnE, List.length_nil]; omega
  have hctake : rec.c.take (160 + rec.extra_len) = rec.c := by
    apply List.take_of_length_le; rw [hclen, hrecel]
  have hctake2 : rec.c.take (160 + extra.length) = rec.c := by
    apply List.take_of_length_le; rw [hclen]
  have hstart : session_usr_start P pw r x_u nonceU
      = some (⟨r, x_u, nonceU, alpha⟩, ⟨alpha, P.smul_base x_u, nonceU⟩) := by
    simp [session_usr_start, sphinx_blindPW, halpha]
  have hsrv : session_srv P ⟨alpha, P.smul_base x_u, nonceU⟩ rec ids infos x_s nonceS
      = some { resp := { beta := beta, X_s := P.smul_base x_s, nonceS := nonceS,
                         auth := P.hmac (derive_keys P (a ++ b ++ c3) (calc_info P nonceU nonceS ids)).km2
                           (get_xcript P alpha nonceU (P.smul_base x_u) beta rec.c nonceS (P.smul_base x_s) infos true).1,
                         extra_len := rec.extra_len, c := rec.c },
               sk := (derive_keys P (a ++ b ++ c3) (calc_info P nonceU nonceS ids)).sk,
               km3 := (derive_keys P (a ++ b ++ c3) (calc_info P nonceU nonceS ids)).km3,
               xstate := (get_xcript P alpha nonceU (P.smul_base x_u) beta rec.c nonceS (P.smul_base x_s) infos true).2 } := by
    simp only [session_srv, hrecks, hrecps, hrecPu, hvalalpha, hbeta, server_3dh,
      hdh1, hdh2, hdh3, hctake, if_true]
  have hopen : envelope_open P rw rec.c (96 + extra.length) 0
      = some (p_u ++ P.smul_base p_u ++ P.smul_base p_s ++ extra, none,
              (envelope P rw (p_u ++ P.smul_base p_u ++ P.smul_base p_s ++ extra) [] nonceE).2) := by
    have h := envelope_open_envelope P rw
      (p_u ++ P.smul_base p_u ++ P.smul_base p_s ++ extra) [] nonceE hnE
    rw [hrecc, ← hseclen]
    simpa using h
  have hsec1 : (p_u ++ P.smul_base p_u ++ P.smul_base p_s ++ extra).take 32 = p_u := by
    have : p_u ++ P.smul_base p_u ++ P.smul_base p_s ++ extra
        = p_u ++ (P.smul_base p_u ++ (P.smul_base p_s ++ extra)) := by
      simp [List.append_assoc]
    rw [this, List.take_left' hpu]
  have hsec2 : ((p_u ++ P.smul_base p_u ++ P.smul_base p_s ++ extra).drop 64).take 32
      = P.smul_base p_s := by
    have h1 : p_u ++ P.smul_base p_u ++ P.smul_base p_s ++ extra
        = (p_u ++ P.smul_base p_u) ++ (P.smul_base p_s ++ extra) := by
      simp [List.append_assoc]
    have h2 : (p_u ++ P.smul_base p_u).length = 64 := by
      simp [hpu, P.smul_base_len]
    rw [h1, List.drop_left' h2, List.take_left' (P.smul_base_len p_s)]
  have hsec3 : ((p_u ++ P.smul_base p_u ++ P.smul_base p_s ++ extra).drop 96).take extra.length
      = extra := by
    have h2 : (p_u ++ P.smul_base p_u ++ P.smul_base p_s).length = 96 := by
      simp [hpu, P.smul_base_len]
    rw [List.drop_left' h2, List.take_length]
  have hfin : session_usr_finish P pw
        { beta := beta, X_s := P.smul_base x_s, nonceS := nonceS,
          auth := P.hmac (derive_keys P (a ++ b ++ c3) (calc_info P nonceU nonceS ids)).km2
            (get_xcript P alpha nonceU (P.smul_base x_u) beta rec.c nonceS (P.smul_base x_s) infos true).1,
          extra_len := rec.extra_len, c := rec.c }
        ⟨r, x_u, nonceU, alpha⟩ key ids infos 0 true true
      = { ret := true,
          sk := some (derive_keys P (a ++ b ++ c3) (calc_info P nonceU nonceS ids)).sk,
          extra := if extra.length ≠ 0 then some extra else none,
          rwd := some (P.genhash rwdKey rw 32),
          auth := some (P.hmac (derive_keys P (a ++ b ++ c3) (calc_info P nonceU nonceS ids)).km3
            (get_xcript P alpha nonceU (P.smul_base x_u) beta rec.c nonceS (P.smul_base x_s) infos true).1),
          clrEnv := none,
          export_key := some (envelope P rw (p_u ++ P.smul_base p_u ++ P.smul_base p_s ++ extra) [] nonceE).2 } := by
    have hmax : ¬ (extra.length > MAX_EXTRA_BYTES) := by
      simp [MAX_EXTRA_BYTES]; omega
    simp only [session_usr_finish, hvalbeta, hir, hunblind, ← hrw, hrecel, hmax,
      if_true, if_false, hopen, hctake2, hsec1, hsec2, hsec3, user_3dh,
      hdh1u, hdh2u, hdh3u, hno3, get_xcript_fst P alpha nonceU (P.smul_base x_u)
        beta rec.c nonceS (P.smul_base x_s) infos false true,
      eq_self_iff_true, ite_true, ite_false]
  have hsk : (derive_keys P (a ++ b ++ c3) (calc_info P nonceU nonceS ids)).sk.length = 32 := by
    simp [derive_keys, List.length_take, P.hkdf_expand_len]
  exact ⟨hstart, hsrv, hfin, hsk⟩

/-- C1 (amended): for every pw, extra, optional key, ids, infos carrying no
info3/einfo3, and every sequence of RNG draws, init_srv with an EMPTY
ClrEnv followed by the full login flow with the same pw, key, ids and
infos succeeds, and the 32-byte session key output by session_srv equals
the one output by session_usr_finish.  The algebraic hypotheses state that
the trusted group primitives behave as a group on the concrete draws (OPRF
unblinding agreement, Diffie-Hellman commutativity, no degenerate
results); hpu/hnE record that RNG draws are 32 bytes. -/
theorem C1_register_login_roundtrip
    (P : Prims) (pw extra : Bytes) (key : Option Bytes) (ids : Ids)
    (infos : Option App_Infos)
    (k_s p_s p_u nonceE r x_u nonceU x_s nonceS alpha beta ir h0 a b c3 : Bytes)
    (hpu : p_u.length = 32) (hnE : nonceE.length = 32)
    (hex : extra.length ≤ 1024)
    (hno3 : stripInfo3 infos = infos)
    (hoprf : P.r255_smul k_s (P.hash2grp pw) = some h0)
    (halpha : P.r255_smul r (P.hash2grp pw) = some alpha)
    (hvalalpha : P.r255_valid alpha = true)
    (hbeta : P.r255_smul k_s alpha = some beta)
    (hvalbeta : P.r255_valid beta = true)
    (hir : P.r255_inv r = some ir)
    (hunblind : P.r255_smul ir beta = some h0)
    (hdh1 : P.smul p_s (P.smul_base x_u) = some a)
    (hdh1u : P.smul x_u (P.smul_base p_s) = some a)
    (hdh2 : P.smul x_s (P.smul_base p_u) = some b)
    (hdh2u : P.smul p_u (P.smul_base x_s) = some b)
    (hdh3 : P.smul x_s (P.smul_base x_u) = some c3)
    (hdh3u : P.smul x_u (P.smul_base x_s) = some c3) :
    ∃ rec ekreg sec pub so fo,
      init_srv P pw extra key [] k_s p_s p_u nonceE = some (rec, ekreg)
      ∧ session_usr_start P pw r x_u nonceU = some (sec, pub)
      ∧ session_srv P pub rec ids infos x_s nonceS = some so
      ∧ session_usr_finish P pw so.resp sec key ids infos 0 true true = fo
      ∧ fo.ret = true ∧ so.sk.length = 32 ∧ fo.sk = some so.sk := by
  have hinit : init_srv P pw extra key [] k_s p_s p_u nonceE
      = some ({ k_s := k_s, p_s := p_s, P_u := P.smul_base p_u, P_s := P.smul_base p_s,
                extra_len := extra.length,
                c := (envelope P (P.pwhash (P.genhash (key.getD []) (pw ++ h0) 32))
                  (p_u ++ P.smul_base p_u ++ P.smul_base p_s ++ extra) [] nonceE).1 },
              (envelope P (P.pwhash (P.genhash (key.getD []) (pw ++ h0) 32))
                (p_u ++ P.smul_base p_u ++ P.smul_base p_s ++ extra) [] nonceE).2) := by
    simp only [init_srv, sphinx_oprf, hoprf]
  obtain ⟨hstart, hsrv, hfin, hsk⟩ := login_roundtrip P pw extra key ids infos
    ({ k_s := k_s, p_s := p_s, P_u := P.smul_base p_u, P_s := P.smul_base p_s,
       extra_len := extra.length,
       c := (envelope P (P.pwhash (P.genhash (key.getD []) (pw ++ h0) 32))
         (p_u ++ P.smul_base p_u ++ P.smul_base p_s ++ extra) [] nonceE).1 })
    k_s p_s p_u nonceE r x_u nonceU x_s nonceS alpha beta ir h0
    (P.pwhash (P.genhash (key.getD []) (pw ++ h0) 32)) a b c3
    hpu hnE hex hno3 rfl rfl rfl rfl rfl rfl halpha hvalalpha hbeta hvalbeta hir
    hunblind hdh1 hdh1u hdh2 hdh2u hdh3 hdh3u
  exact ⟨_, _, _, _, _, _, hinit, hstart, hsrv, hfin, rfl, hsk, rfl⟩

/-- C1 witness: the amended roundtrip evaluated on concrete draws over the
concrete primitive instance. -/
theorem C1_witness :
    ∃ rec ekreg sec pub so fo,
      init_srv toy [1] [9, 8] (some [2]) [] (pad32 3) (pad32 2) (pad32 4) (pad32 6)
        = some (rec, ekreg)
      ∧ session_usr_start toy [1] (pad32 3) (pad32 3) (pad32 7) = some (sec, pub)
      ∧ session_srv toy pub rec ⟨some [4], some [5]⟩ none (pad32 5) (pad32 8) = some so
      ∧ session_usr_finish toy [1] so.resp sec (some [2]) ⟨some [4], some [5]⟩ none 0 true true = fo
      ∧ fo.ret = true ∧ so.sk.length = 32 ∧ fo.sk = some so.sk :=
  C1_register_login_roundtrip toy [1] [9, 8] (some [2]) ⟨some [4], some [5]⟩ none
    (pad32 3) (pad32 2) (pad32 4) (pad32 6) (pad32 3) (pad32 3) (pad32 7)
    (pad32 5) (pad32 8) (pad32 10) (pad32 10) (pad32 7) (pad32 10)
    (pad32 8) (pad32 12) (pad32 19)
    (by decide) (by decide) (by decide) rfl (by decide) (by decide)
    (by decide) (by decide) (by decide) (by decide) (by decide) (by decide)
    (by decide) (by decide) (by decide) (by decide) (by decide)

/-- Default record used when destructuring concrete runs. -/
def defRec : UserRecord :=
  { k_s := [], p_s := [], P_u := [], P_s := [], extra_len := 0, c := [] }

/-- Default server output used when destructuring concrete runs. -/
def defSrv : SrvOut :=
  { resp := { beta := [], X_s := [], nonceS := [], auth := [], extra_len := 0, c := [] },
    sk := [], km3 := [], xstate := none }

/-- Default client session pair used when destructuring concrete runs. -/
def defStart : UserSession_Secret × UserSession :=
  (⟨[], [], [], []⟩, ⟨[], [], []⟩)

/-- Concrete registration with a non-empty (32-byte) ClrEnv. -/
def c1xReg : UserRecord × Bytes :=
  (init_srv toy [1] [9, 8] (some [2]) (List.replicate 32 9)
    (pad32 3) (pad32 2) (pad32 4) (pad32 6)).getD (defRec, [])

/-- Concrete login start for the non-empty ClrEnv run. -/
def c1xStart : UserSession_Secret × UserSession :=
  (session_usr_start toy [1] (pad32 3) (pad32 3) (pad32 7)).getD defStart

/-- Concrete server step for the non-empty ClrEnv run. -/
def c1xSrv : SrvOut :=
  (session_srv toy c1xStart.2 c1xReg.1 ⟨some [4], some [5]⟩ none (pad32 5) (pad32 8)).getD defSrv

set_option maxRecDepth 8192 in
/-- C1 counterexample: with a non-empty ClrEnv (32 bytes of 9) the claim
fails: registration, login start and the server step all succeed, but
session_usr_finish with the same pw, key, ids and infos returns failure,
whichever ClrEnv length the client passes (0 or the registered 32) -
the server response truncates the envelope after 160 + extra_len bytes,
dropping the ClrEnv/tag tail, so the envelope can never authenticate. -/
theorem C1_counterexample :
    init_srv toy [1] [9, 8] (some [2]) (List.replicate 32 9)
      (pad32 3) (pad32 2) (pad32 4) (pad32 6) = some c1xReg
    ∧ session_usr_start toy [1] (pad32 3) (pad32 3) (pad32 7) = some c1xStart
    ∧ session_srv toy c1xStart.2 c1xReg.1 ⟨some [4], some [5]⟩ none (pad32 5) (pad32 8)
      = some c1xSrv
    ∧ (session_usr_finish toy [1] c1xSrv.resp c1xStart.1 (some [2])
        ⟨some [4], some [5]⟩ none 0 true true).ret = false
    ∧ (session_usr_finish toy [1] c1xSrv.resp c1xStart.1 (some [2])
        ⟨some [4], some [5]⟩ none 32 true true).ret = false := by
  refine ⟨?_, ?_, ?_, ?_, ?_⟩ <;> decide

/-- C2: when the client finishes a login under a password pw' different
from the registration password pw, the call fails at the envelope-open
step (the envelope HMAC recomputed under the pw'-derived rw does not match
the sealed tag, which is EnvelopeAuthFailed) and writes none of its output
buffers, in particular no session key.  The tag mismatch itself (htag) is
the collision-freeness of the password-to-key derivation, a property of
the trusted primitives; hvalbeta/hir/hh0 record that the steps before the
envelope open pass. -/
theorem C2_wrong_password_fails
    (P : Prims) (pw pw' extra : Bytes) (key : Option Bytes) (ids : Ids)
    (infos : Option App_Infos)
    (k_s p_s p_u nonceE r x_u nonceU x_s nonceS : Bytes)
    (rec : UserRecord) (ekreg : Bytes) (sec : UserSession_Secret)
    (pub : UserSession) (so : SrvOut) (ir h0 : Bytes) (CL : Nat) (wr wa : Bool)
    (hne : pw ≠ pw')
    (hreg : init_srv P pw extra key [] k_s p_s p_u nonceE = some (rec, ekreg))
    (hstart : session_usr_start P pw' r x_u nonceU = some (sec, pub))
    (hsrv : session_srv P pub rec ids infos x_s nonceS = some so)
    (hvalbeta : P.r255_valid so.resp.beta = true)
    (hir : P.r255_inv sec.r = some ir)
    (hh0 : P.r255_smul ir so.resp.beta = some h0)
    (hel : so.resp.extra_len ≤ MAX_EXTRA_BYTES)
    (htag : P.hmac (((P.hkdf_expand (2 * 32 + (96 + so.resp.extra_len))
          (so.resp.c.take 32 ++ envU)
          (P.pwhash (P.genhash (key.getD []) (pw' ++ h0) 32))).drop
            (96 + so.resp.extra_len)).take 32)
        (so.resp.c.take (32 + (96 + so.resp.extra_len) + CL))
      ≠ (so.resp.c.drop (32 + (96 + so.resp.extra_len) + CL)).take 32) :
    envelope_open P (P.pwhash (P.genhash (key.getD []) (pw' ++ h0) 32))
      so.resp.c (96 + so.resp.extra_len) CL = none
    ∧ session_usr_finish P pw' so.resp sec key ids infos CL wr wa = finishFail := by
  have hopen : envelope_open P (P.pwhash (P.genhash (key.getD []) (pw' ++ h0) 32))
      so.resp.c (96 + so.resp.extra_len) CL = none := by
    simp only [envelope_open]
    rw [if_neg htag]
  have hmax : ¬ (so.resp.extra_len > MAX_EXTRA_BYTES) := by omega
  refine ⟨hopen, ?_⟩
  simp only [session_usr_finish, hvalbeta, hir, hh0, hmax, hopen,
    eq_self_iff_true, ite_true, ite_false, if_false]

/-- Concrete registration under pw = the byte 1 (C2 run). -/
def c2Reg : UserRecord × Bytes :=
  (init_srv toy [1] [9, 8] (some [2]) [] (pad32 3) (pad32 2) (pad32 4) (pad32 6)).getD
    (defRec, [])

/-- Concrete login start under the different password pw' = the byte 2. -/
def c2Start : UserSession_Secret × UserSession :=
  (session_usr_start toy [2] (pad32 3) (pad32 3) (pad32 7)).getD defStart

/-- Concrete server step answering the pw' login against the pw record. -/
def c2Srv : SrvOut :=
  (session_srv toy c2Start.2 c2Reg.1 ⟨some [4], some [5]⟩ none (pad32 5) (pad32 8)).getD defSrv

set_option maxRecDepth 8192 in
/-- C2 witness: the wrong-password failure evaluated on concrete inputs. -/
theorem C2_witness :
    envelope_open toy (toy.pwhash (toy.genhash [2] ([2] ++ pad32 3) 32))
      c2Srv.resp.c (96 + c2Srv.resp.extra_len) 0 = none
    ∧ session_usr_finish toy [2] c2Srv.resp c2Start.1 (some [2])
        ⟨some [4], some [5]⟩ none 0 true true = finishFail :=
  C2_wrong_password_fails toy [1] [2] [9, 8] (some [2]) ⟨some [4], some [5]⟩ none
    (pad32 3) (pad32 2) (pad32 4) (pad32 6) (pad32 3) (pad32 3) (pad32 7)
    (pad32 5) (pad32 8) c2Reg.1 c2Reg.2 c2Start.1 c2Start.2 c2Srv
    (pad32 7) (pad32 3) 0 true true
    (by decide) (by decide) (by decide) (by decide) (by decide) (by decide)
    (by decide) (by decide) (by decide)

/-- Concrete infos carrying a non-NULL info3 (C3 run). -/
def c3Infos : Option App_Infos :=
  some { info1 := none, info2 := none, einfo2 := none, info3 := some [1, 2], einfo3 := none }

/-- Concrete registration for the C3 run. -/
def c3Reg : UserRecord × Bytes :=
  (init_srv toy [1] [9, 8] (some [2]) [] (pad32 3) (pad32 2) (pad32 4) (pad32 6)).getD
    (defRec, [])

/-- Concrete login start for the C3 run. -/
def c3Start : UserSession_Secret × UserSession :=
  (session_usr_start toy [1] (pad32 3) (pad32 3) (pad32 7)).getD defStart

/-- Concrete server step for the C3 run, with info3 supplied. -/
def c3Srv : SrvOut :=
  (session_srv toy c3Start.2 c3Reg.1 ⟨some [4], some [5]⟩ c3Infos (pad32 5) (pad32 8)).getD defSrv

set_option maxRecDepth 8192 in
/-- C3 evaluation at the failing input (infos with a non-NULL info3): the
server step succeeds and computes its authenticator as the HMAC under Km2
of the transcript INCLUDING info3 - which differs from the HMAC of the
transcript with info3/einfo3 stripped that the claim (and the client, who
strips them before verifying) requires - so the honest client rejects the
response, and the server's transcript state is left unwritten. -/
theorem C3_failing_run :
    session_srv toy c3Start.2 c3Reg.1 ⟨some [4], some [5]⟩ c3Infos (pad32 5) (pad32 8)
      = some c3Srv
    ∧ c3Srv.resp.auth
      = toy.hmac (derive_keys toy (pad32 8 ++ pad32 12 ++ pad32 19)
          (calc_info toy (pad32 7) (pad32 8) ⟨some [4], some [5]⟩)).km2
        (get_xcript toy c3Start.2.alpha (pad32 7) c3Start.2.X_u c3Srv.resp.beta
          (c3Srv.resp.c.take (160 + c3Srv.resp.extra_len)) (pad32 8) c3Srv.resp.X_s
          c3Infos true).1
    ∧ c3Srv.resp.auth
      ≠ toy.hmac (derive_keys toy (pad32 8 ++ pad32 12 ++ pad32 19)
          (calc_info toy (pad32 7) (pad32 8) ⟨some [4], some [5]⟩)).km2
        (get_xcript toy c3Start.2.alpha (pad32 7) c3Start.2.X_u c3Srv.resp.beta
          (c3Srv.resp.c.take (160 + c3Srv.resp.extra_len)) (pad32 8) c3Srv.resp.X_s
          (stripInfo3 c3Infos) true).1
    ∧ c3Srv.xstate = none
    ∧ (session_usr_finish toy [1] c3Srv.resp c3Start.1 (some [2])
        ⟨some [4], some [5]⟩ c3Infos 0 true true).ret = false := by
  refine ⟨?_, ?_, ?_, ?_, ?_⟩ <;> decide

/-- Concrete registration for the C4 run. -/
def c4Reg : UserRecord × Bytes :=
  (init_srv toy [1] [9, 8] (some [2]) [] (pad32 3) (pad32 2) (pad32 4) (pad32 6)).getD
    (defRec, [])

/-- Concrete login start for the C4 run. -/
def c4Start : UserSession_Secret × UserSession :=
  (session_usr_start toy [1] (pad32 3) (pad32 3) (pad32 7)).getD defStart

/-- Concrete server step for the C4 run. -/
def c4Srv : SrvOut :=
  (session_srv toy c4Start.2 c4Reg.1 ⟨some [4], some [5]⟩ none (pad32 5) (pad32 8)).getD defSrv

/-- The C4 server response with its authenticator tampered. -/
def c4Resp : ServerSession := { c4Srv.resp with auth := pad32 999 }

set_option maxRecDepth 8192 in
/-- C4 evaluation at the failing input (server authenticator tampered,
correct password): session_usr_finish returns failure and withholds sk,
extra and auth, and zeroes rwd - but the caller-visible export_key buffer
is left holding the export key of the successfully opened envelope (the
same value registration returned), which is protocol-derived data, and the
recovered ClrEnv would likewise remain.  This contradicts the claim (and
the spec's no-partial-outputs policy). -/
theorem C4_failing_run :
    (session_usr_finish toy [1] c4Resp c4Start.1 (some [2])
        ⟨some [4], some [5]⟩ none 0 true true).ret = false
    ∧ (session_usr_finish toy [1] c4Resp c4Start.1 (some [2])
        ⟨some [4], some [5]⟩ none 0 true true).sk = none
    ∧ (session_usr_finish toy [1] c4Resp c4Start.1 (some [2])
        ⟨some [4], some [5]⟩ none 0 true true).rwd = some (List.replicate 32 0)
    ∧ (session_usr_finish toy [1] c4Resp c4Start.1 (some [2])
        ⟨some [4], some [5]⟩ none 0 true true).export_key = some c4Reg.2
    ∧ c4Reg.2 ≠ List.replicate 32 0 := by
  refine ⟨?_, ?_, ?_, ?_, ?_⟩ <;> decide

/-- C6: server_3dh concatenates its Diffie-Hellman products in the order
(Ep . ix) | (Ip . ex) | (Ep . ex) and user_3dh in the order
(Ip . ex) | (Ep . ix) | (Ep . ex); hence for non-degenerate scalars with
P_s = g^p_s, P_u = g^p_u, X_s = g^x_s, X_u = g^x_u and the same info
string, the server call and the client call produce the identical key
bundle SK, Km2, Km3, Ke2, Ke3.  The hdh hypotheses record the
Diffie-Hellman commutativity of the trusted group on the concrete scalars
and that no product degenerates. -/
theorem C6_3dh_agreement
    (P : Prims) (p_s x_s p_u x_u info : Bytes) (a b c3 : Bytes)
    (hdh1 : P.smul p_s (P.smul_base x_u) = some a)
    (hdh1u : P.smul x_u (P.smul_base p_s) = some a)
    (hdh2 : P.smul x_s (P.smul_base p_u) = some b)
    (hdh2u : P.smul p_u (P.smul_base x_s) = some b)
    (hdh3 : P.smul x_s (P.smul_base x_u) = some c3)
    (hdh3u : P.smul x_u (P.smul_base x_s) = some c3) :
    server_3dh P p_s x_s (P.smul_base p_u) (P.smul_base x_u) info
      = some (derive_keys P (a ++ b ++ c3) info)
    ∧ user_3dh P p_u x_u (P.smul_base p_s) (P.smul_base x_s) info
      = some (derive_keys P (a ++ b ++ c3) info)
    ∧ server_3dh P p_s x_s (P.smul_base p_u) (P.smul_base x_u) info
      = user_3dh P p_u x_u (P.smul_base p_s) (P.smul_base x_s) info := by
  refine ⟨?_, ?_, ?_⟩
  · simp [server_3dh, hdh1, hdh2, hdh3]
  · simp [user_3dh, hdh1u, hdh2u, hdh3u]
  · simp [server_3dh, user_3dh, hdh1, hdh2, hdh3, hdh1u, hdh2u, hdh3u]

/-- C6 witness: the 3-DH agreement evaluated on concrete scalars. -/
theorem C6_witness :
    server_3dh toy (pad32 2) (pad32 5) (toy.smul_base (pad32 4)) (toy.smul_base (pad32 3)) [1]
      = some (derive_keys toy (pad32 8 ++ pad32 12 ++ pad32 19) [1])
    ∧ user_3dh toy (pad32 4) (pad32 3) (toy.smul_base (pad32 2)) (toy.smul_base (pad32 5)) [1]
      = some (derive_keys toy (pad32 8 ++ pad32 12 ++ pad32 19) [1])
    ∧ server_3dh toy (pad32 2) (pad32 5) (toy.smul_base (pad32 4)) (toy.smul_base (pad32 3)) [1]
      = user_3dh toy (pad32 4) (pad32 3) (toy.smul_base (pad32 2)) (toy.smul_base (pad32 5)) [1] :=
  C6_3dh_agreement toy (pad32 2) (pad32 5) (pad32 4) (pad32 3) [1]
    (pad32 8) (pad32 12) (pad32 19)
    (by decide) (by decide) (by decide) (by decide) (by decide) (by decide)

/-- C7: replacing a point received from the peer by the group identity
encoding makes the receiving step return an error: the identity as alpha
makes session_srv abort, the identity as X_u makes session_srv abort (the
first 3-DH scalar multiplication degenerates), the identity as beta makes
session_usr_finish abort with nothing written, and the identity as X_s
makes session_usr_finish abort.  hval and hsm record the primitive-layer
facts that the identity encoding is rejected by the ristretto validity
check and degenerates every curve25519 scalar multiplication. -/
theorem C7_identity_aborts
    (P : Prims) (idR idX : Bytes)
    (hval : P.r255_valid idR = false)
    (hsm : ∀ s, P.smul s idX = none)
    (pub : UserSession) (rec : UserRecord) (ids : Ids) (infos : Option App_Infos)
    (x_s nonceS pw : Bytes) (resp : ServerSession) (sec : UserSession_Secret)
    (key : Option Bytes) (CL : Nat) (wr wa : Bool) :
    session_srv P { pub with alpha := idR } rec ids infos x_s nonceS = none
    ∧ session_srv P { pub with X_u := idX } rec ids infos x_s nonceS = none
    ∧ session_usr_finish P pw { resp with beta := idR } sec key ids infos CL wr wa
        = finishFail
    ∧ (session_usr_finish P pw { resp with X_s := idX } sec key ids infos CL wr wa).ret
        = false := by
  refine ⟨?_, ?_, ?_, ?_⟩
  · simp [session_srv, hval]
  · by_cases h1 : P.r255_valid pub.alpha = true
    · simp only [session_srv, h1, if_true]
      cases hb : P.r255_smul rec.k_s pub.alpha with
      | none => rfl
      | some beta => simp [server_3dh, hsm]
    · simp [session_srv, h1]
  · simp [session_usr_finish, hval]
  · by_cases h1 : P.r255_valid resp.beta = true
    · simp only [session_usr_finish, h1, if_true]
      cases h2 : P.r255_inv sec.r with
      | none => rfl
      | some ir =>
        dsimp only
        cases h3 : P.r255_smul ir resp.beta with
        | none => rfl
        | some h0 =>
          dsimp only
          by_cases h4 : resp.extra_len > MAX_EXTRA_BYTES
          · rw [if_pos h4]; rfl
          · rw [if_neg h4]
            cases h5 : envelope_open P (P.pwhash (P.genhash (key.getD []) (pw ++ h0) 32))
                resp.c (96 + resp.extra_len) CL with
            | none => rfl
            | some tpl =>
              obtain ⟨SecEnv, clr, ekey⟩ := tpl
              dsimp only
              have hu : user_3dh P (SecEnv.take 32) sec.x_u ((SecEnv.drop 64).take 32) idX
                  (calc_info P sec.nonceU resp.nonceS ids) = none := by
                simp only [user_3dh, hsm]
                cases P.smul sec.x_u ((SecEnv.drop 64).take 32) <;> rfl
              rw [hu]
    · simp [session_usr_finish, h1, finishFail]

/-- C7 witness: the identity injections evaluated at the concrete instance
(identity encoding: the 32-byte buffer with leading byte 1, the identity
of both toy groups). -/
theorem C7_witness :
    session_srv toy { alpha := pad32 1, X_u := pad32 10, nonceU := pad32 7 }
      defRec ⟨some [4], some [5]⟩ none (pad32 5) (pad32 8) = none
    ∧ session_srv toy { alpha := pad32 10, X_u := pad32 1, nonceU := pad32 7 }
      defRec ⟨some [4], some [5]⟩ none (pad32 5) (pad32 8) = none
    ∧ session_usr_finish toy [1]
        { beta := pad32 1, X_s := pad32 20, nonceS := pad32 8, auth := pad32 9,
          extra_len := 0, c := [] }
        ⟨pad32 3, pad32 3, pad32 7, pad32 10⟩ (some [2]) ⟨some [4], some [5]⟩
        none 0 true true = finishFail
    ∧ (session_usr_finish toy [1]
        { beta := pad32 5, X_s := pad32 1, nonceS := pad32 8, auth := pad32 9,
          extra_len := 0, c := [] }
        ⟨pad32 3, pad32 3, pad32 7, pad32 10⟩ (some [2]) ⟨some [4], some [5]⟩
        none 0 true true).ret = false :=
  C7_identity_aborts toy (pad32 1) (pad32 1) (by decide)
    (fun s => by simp [toy, pad32, Nat.one_pow])
    { alpha := pad32 10, X_u := pad32 10, nonceU := pad32 7 } defRec
    ⟨some [4], some [5]⟩ none (pad32 5) (pad32 8) [1]
    { beta := pad32 5, X_s := pad32 20, nonceS := pad32 8, auth := pad32 9,
      extra_len := 0, c := [] }
    ⟨pad32 3, pad32 3, pad32 7, pad32 10⟩ (some [2]) 0 true true

/-- C8 (amended): session_usr_finish rejects any server response whose
extra_len field exceeds MAX_EXTRA_BYTES before using it for envelope
sizing - whatever else the inputs are, the call returns failure with no
outputs written.  The registration-side entry points init_srv and
private_init_usr_respond perform no such check (the counterexample shows
them accepting 1025 bytes of extra). -/
theorem C8_finish_rejects_large_extra_len
    (P : Prims) (pw : Bytes) (resp : ServerSession) (sec : UserSession_Secret)
    (key : Option Bytes) (ids : Ids) (infos : Option App_Infos) (CL : Nat)
    (wr wa : Bool)
    (hbig : resp.extra_len > MAX_EXTRA_BYTES) :
    session_usr_finish P pw resp sec key ids infos CL wr wa = finishFail := by
  by_cases h1 : P.r255_valid resp.beta = true
  · simp only [session_usr_finish, h1, if_true]
    cases h2 : P.r255_inv sec.r with
    | none => rfl
    | some ir =>
      dsimp only
      cases h3 : P.r255_smul ir resp.beta with
      | none => rfl
      | some h0 => dsimp only; rw [if_pos hbig]
  · simp [session_usr_finish, h1, finishFail]

/-- C8 witness: the finish-side bound evaluated on a concrete response
with extra_len 1025. -/
theorem C8_witness :
    session_usr_finish toy [1]
      { beta := pad32 5, X_s := pad32 20, nonceS := pad32 8, auth := pad32 9,
        extra_len := 1025, c := [] }
      ⟨pad32 3, pad32 3, pad32 7, pad32 10⟩ (some [2]) ⟨some [4], some [5]⟩
      none 0 true true = finishFail :=
  C8_finish_rejects_large_extra_len toy [1]
    { beta := pad32 5, X_s := pad32 20, nonceS := pad32 8, auth := pad32 9,
      extra_len := 1025, c := [] }
    ⟨pad32 3, pad32 3, pad32 7, pad32 10⟩ (some [2]) ⟨some [4], some [5]⟩
    none 0 true true (by decide)

set_option maxRecDepth 100000 in
/-- C8 counterexample: the registration entry points do NOT reject an
extra payload longer than OPAQUE_MAX_EXTRA_BYTES = 1024: both init_srv
and private_init_usr_respond accept 1025 bytes of extra and return
success. -/
theorem C8_counterexample :
    (init_srv toy [1] (List.replicate 1025 7) (some [2]) []
      (pad32 3) (pad32 2) (pad32 4) (pad32 6)).isSome = true
    ∧ (private_init_usr_respond toy [1] (pad32 3) ⟨pad32 5, pad32 2⟩
      (List.replicate 1025 7) (some [2]) [] (pad32 4) (pad32 6) true).isSome = true := by
  refine ⟨?_, ?_⟩ <;> decide

/-- C9: private_init_srv_finish writes exactly k_s and p_s from the step-2
registration secret and P_s from the step-2 registration public into the
record, leaves P_u, extra_len and the whole envelope blob unchanged from
the step-3 record - and always succeeds (its result type is a plain
record: there is no error return). -/
theorem C9_srv_finish_frame (sec : RegisterSec) (pub : RegisterPub) (rec : UserRecord) :
    (private_init_srv_finish sec pub rec).k_s = sec.k_s
    ∧ (private_init_srv_finish sec pub rec).p_s = sec.p_s
    ∧ (private_init_srv_finish sec pub rec).P_s = pub.P_s
    ∧ (private_init_srv_finish sec pub rec).P_u = rec.P_u
    ∧ (private_init_srv_finish sec pub rec).extra_len = rec.extra_len
    ∧ (private_init_srv_finish sec pub rec).c = rec.c :=
  ⟨rfl, rfl, rfl, rfl, rfl, rfl⟩

/-- C10: with the rwd output requested, private_init_usr_respond emits
rwd = generichash(key = the 3 bytes rwd, rw) for the rw derived from
(pw, key, k_s), and session_usr_finish at every later successful login
against the resulting record emits the same value.  The hypotheses mirror
the login_roundtrip hypotheses: both unblinding chains (registration under
blind rro, login under blind r2) reach the same OPRF point h0, the
Diffie-Hellman products commute on the concrete draws, and nothing
degenerates. -/
theorem C10_private_rwd_stable
    (P : Prims) (pw extra : Bytes) (key : Option Bytes) (ids : Ids)
    (infos : Option App_Infos)
    (k_s p_s p_u nonceE rro r2 x_u nonceU x_s nonceS : Bytes)
    (alphaR betaR irR alphaL betaL irL h0 a b c3 : Bytes)
    (hpu : p_u.length = 32) (hnE : nonceE.length = 32)
    (hex : extra.length ≤ 1024)
    (hno3 : stripInfo3 infos = infos)
    (halphaR : P.r255_smul rro (P.hash2grp pw) = some alphaR)
    (hvalalphaR : P.r255_valid alphaR = true)
    (hbetaR : P.r255_smul k_s alphaR = some betaR)
    (hvalbetaR : P.r255_valid betaR = true)
    (hirR : P.r255_inv rro = some irR)
    (hunblindR : P.r255_smul irR betaR = some h0)
    (halphaL : P.r255_smul r2 (P.hash2grp pw) = some alphaL)
    (hvalalphaL : P.r255_valid alphaL = true)
    (hbetaL : P.r255_smul k_s alphaL = some betaL)
    (hvalbetaL : P.r255_valid betaL = true)
    (hirL : P.r255_inv r2 = some irL)
    (hunblindL : P.r255_smul irL betaL = some h0)
    (hdh1 : P.smul p_s (P.smul_base x_u) = some a)
    (hdh1u : P.smul x_u (P.smul_base p_s) = some a)
    (hdh2 : P.smul x_s (P.smul_base p_u) = some b)
    (hdh2u : P.smul p_u (P.smul_base x_s) = some b)
    (hdh3 : P.smul x_s (P.smul_base x_u) = some c3)
    (hdh3u : P.smul x_u (P.smul_base x_s) = some c3) :
    ∃ rsec rpub rec0 rwdreg ekreg sec pub so fo,
      private_init_usr_start P pw rro = some alphaR
      ∧ private_init_srv_respond P alphaR k_s p_s = some (rsec, rpub)
      ∧ private_init_usr_respond P pw rro rpub extra key [] p_u nonceE true
        = some (rec0, some rwdreg, ekreg)
      ∧ session_usr_start P pw r2 x_u nonceU = some (sec, pub)
      ∧ session_srv P pub (private_init_srv_finish rsec rpub rec0) ids infos x_s nonceS
        = some so
      ∧ session_usr_finish P pw so.resp sec key ids infos 0 true true = fo
      ∧ fo.ret = true
      ∧ rwdreg
        = P.genhash rwdKey (P.pwhash (P.genhash (key.getD []) (pw ++ h0) 32)) 32
      ∧ fo.rwd = some rwdreg := by
  have hstart0 : private_init_usr_start P pw rro = some alphaR := halphaR
  have hresp : private_init_srv_respond P alphaR k_s p_s
      = some (⟨p_s, k_s⟩, ⟨betaR, P.smul_base p_s⟩) := by
    simp [private_init_srv_respond, hvalalphaR, hbetaR]
  have husr : private_init_usr_respond P pw rro ⟨betaR, P.smul_base p_s⟩ extra key [] p_u nonceE true
      = some ({ k_s := [], p_s := [], P_u := P.smul_base p_u, P_s := [],
                extra_len := extra.length,
                c := (envelope P (P.pwhash (P.genhash (key.getD []) (pw ++ h0) 32))
                  (p_u ++ P.smul_base p_u ++ P.smul_base p_s ++ extra) [] nonceE).1 },
              some (P.genhash rwdKey
                (P.pwhash (P.genhash (key.getD []) (pw ++ h0) 32)) 32),
              (envelope P (P.pwhash (P.genhash (key.getD []) (pw ++ h0) 32))
                (p_u ++ P.smul_base p_u ++ P.smul_base p_s ++ extra) [] nonceE).2) := by
    simp only [private_init_usr_respond, hvalbetaR, hirR, hunblindR, if_true, ite_true]
  obtain ⟨hstart, hsrv, hfin, hsk⟩ := login_roundtrip P pw extra key ids infos
    ({ k_s := k_s, p_s := p_s, P_u := P.smul_base p_u, P_s := P.smul_base p_s,
       extra_len := extra.length,
       c := (envelope P (P.pwhash (P.genhash (key.getD []) (pw ++ h0) 32))
         (p_u ++ P.smul_base p_u ++ P.smul_base p_s ++ extra) [] nonceE).1 })
    k_s p_s p_u nonceE r2 x_u nonceU x_s nonceS alphaL betaL irL h0
    (P.pwhash (P.genhash (key.getD []) (pw ++ h0) 32)) a b c3
    hpu hnE hex hno3 rfl rfl rfl rfl rfl rfl halphaL hvalalphaL hbetaL hvalbetaL hirL
    hunblindL hdh1 hdh1u hdh2 hdh2u hdh3 hdh3u
  exact ⟨_, _, _, _, _, _, _, _, _, hstart0, hresp, husr, hstart, hsrv, hfin, rfl, rfl, rfl⟩

set_option maxRecDepth 8192 in
/-- C10 witness: the private registration flow followed by a login,
evaluated on concrete draws, with the registration blind 3 and the login
blind 7. -/
theorem C10_witness :
    ∃ rsec rpub rec0 rwdreg ekreg sec pub so fo,
      private_init_usr_start toy [1] (pad32 3) = some (pad32 10)
      ∧ private_init_srv_respond toy (pad32 10) (pad32 3) (pad32 2) = some (rsec, rpub)
      ∧ private_init_usr_respond toy [1] (pad32 3) rpub [9, 8] (some [2]) [] (pad32 4) (pad32 6) true
        = some (rec0, some rwdreg, ekreg)
      ∧ session_usr_start toy [1] (pad32 7) (pad32 3) (pad32 7) = some (sec, pub)
      ∧ session_srv toy pub (private_init_srv_finish rsec rpub rec0)
          ⟨some [4], some [5]⟩ none (pad32 5) (pad32 8) = some so
      ∧ session_usr_finish toy [1] so.resp sec (some [2]) ⟨some [4], some [5]⟩ none 0 true true = fo
      ∧ fo.ret = true
      ∧ rwdreg
        = toy.genhash rwdKey (toy.pwhash (toy.genhash ((some [2]).getD []) ([1] ++ pad32 10) 32)) 32
      ∧ fo.rwd = some rwdreg :=
  C10_private_rwd_stable toy [1] [9, 8] (some [2]) ⟨some [4], some [5]⟩ none
    (pad32 3) (pad32 2) (pad32 4) (pad32 6) (pad32 3) (pad32 7) (pad32 3) (pad32 7)
    (pad32 5) (pad32 8)
    (pad32 10) (pad32 10) (pad32 7) (pad32 10) (pad32 10) (pad32 3) (pad32 10)
    (pad32 8) (pad32 12) (pad32 19)
    (by decide) (by decide) (by decide) rfl
    (by decide) (by decide) (by decide) (by decide) (by decide) (by decide)
    (by decide) (by decide) (by decide) (by decide) (by decide) (by decide)
    (by decide) (by decide) (by decide) (by decide) (by decide) (by decide)

/-- C5: sealing any non-empty SecEnv with any ClrEnv under rw and opening
with the same rw and the true SecEnv/ClrEnv lengths succeeds, returns the
original SecEnv and ClrEnv bytes, and returns the same export_key that the
seal produced. -/
theorem C5_envelope_roundtrip (P : Prims) (rw SecEnv ClrEnv nonce : Bytes)
    (hS : SecEnv ≠ []) (hn : nonce.length = 32) :
    envelope_open P rw (envelope P rw SecEnv ClrEnv nonce).1 SecEnv.length ClrEnv.length
      = some (SecEnv, (if ClrEnv.length ≠ 0 then some ClrEnv else none),
              (envelope P rw SecEnv ClrEnv nonce).2) :=
  envelope_open_envelope P rw SecEnv ClrEnv nonce hn

/-- C5 witness: the roundtrip evaluated at a concrete instance. -/
theorem C5_witness :
    envelope_open toy (pad32 1) (envelope toy (pad32 1) [1, 2, 3] [4] (pad32 6)).1 3 1
      = some ([1, 2, 3], some [4], (envelope toy (pad32 1) [1, 2, 3] [4] (pad32 6)).2) := by
  have h := C5_envelope_roundtrip toy (pad32 1) [1, 2, 3] [4] (pad32 6)
    (by decide) (by simp [pad32])
  simpa using h

end LibSphinx
